import Mathlib

/-!
Verification of the package disabler core of Package Control
(`package_control/package_disabler.py`): the disable/re-enable state
machine, the appearance backup/restore engine, and the resource locator,
shallowly embedded over an explicit state record and an environment record
for the host editor's collaborator interfaces.
-/

set_option autoImplicit false

namespace PackageControl

/-- A JSON value, as produced by the host's `json.loads`. -/
inductive JValue where
  | null : JValue
  | boolean : Bool → JValue
  | num : Int → JValue
  | str : String → JValue
  | arr : List JValue → JValue
  | obj : List (String × JValue) → JValue

/-- Python exceptions that can escape the embedded code: `AttributeError`
(calling `.get` on a non-dict JSON document) and `KeyError` (indexing a
dict with a missing key). `ValueError` from `json.loads` is always caught
by the source, so it never escapes. -/
inductive PyErr where
  | attributeError : PyErr
  | keyError : PyErr
deriving DecidableEq, Repr

/-- Lookup in a Python dict modelled as an insertion-ordered association
list with unique keys: the value of the first matching key. -/
def dictGet {κ α : Type} [DecidableEq κ] : List (κ × α) → κ → Option α
  | [], _ => none
  | (k', v) :: rest, k => if k' = k then some v else dictGet rest k

/-- Write `d[k] = v` in a Python dict: update in place when the key is
present (order preserved), append otherwise. -/
def dictSet {κ α : Type} [DecidableEq κ] : List (κ × α) → κ → α → List (κ × α)
  | [], k, v => [(k, v)]
  | (k', v') :: rest, k, v =>
      if k' = k then (k, v) :: rest else (k', v') :: dictSet rest k v

/-- Delete a key from a Python dict / erase a key from a settings object. -/
def dictErase {κ α : Type} [DecidableEq κ] (d : List (κ × α)) (k : κ) : List (κ × α) :=
  d.filter (fun p => p.1 ≠ k)

/-- The final path component: everything after the last `/`
(`os.path.basename`). -/
def basename (s : List Char) : List Char :=
  (s.reverse.takeWhile (fun c => c ≠ '/')).reverse

/-- The root part of `os.path.splitext`: drop the extension introduced by
the last dot of the final path component, where the leading dots of that
component never count as an extension separator. -/
def splitextRoot (s : List Char) : List Char :=
  let b := basename s
  let d := s.take (s.length - b.length)
  let lead := b.takeWhile (fun c => c = '.')
  let rest := b.drop lead.length
  if rest.contains '.' then
    d ++ lead ++ ((rest.reverse.dropWhile (fun c => c ≠ '.')).drop 1).reverse
  else
    s

/-- Python's `str.split(sep, 1)` on `/`: the text before the first slash,
and, when a slash is present, the remainder after it. -/
def splitOnce : List Char → List Char × Option (List Char)
  | [] => ([], none)
  | c :: rest =>
      if c = '/' then ([], some rest)
      else
        let r := splitOnce rest
        (c :: r.1, r.2)

/-- The host environment: the editor's resource index and settings
defaults, plus repository collaborators that live outside the
`package_disabler` module. `findResources` models `sublime.find_resources`;
`defaultPrefs` models the decoded
`Packages/Default/Preferences.sublime-settings` resource. `packageFileExists`
and `readPackageFile` are modelled from the spec: the package file store
(`package_file_exists` / `read_package_file` of `package_io`) answering
whether a package contains a relative file, and the raw text of a file
inside a package (`none` when missing or unreadable). `jsonLoads` is
modelled from the spec: the host JSON parser, `none` standing for a
`ValueError` raised on malformed input. -/
structure Env where
  findResources : String → List String
  defaultPrefs : List (String × String)
  packageFileExists : String → String → Bool
  readPackageFile : String → String → Option String
  jsonLoads : String → Option JValue

/-- One open view of the editor: its identity, whether it is still valid
(a view may close between backup and restore), and its view-specific
settings. -/
structure View where
  id : Nat
  valid : Bool
  settings : List (String × String)

/-- The process-wide state of `PackageDisabler` together with the
persisted list settings and the live editor settings the module mutates:
`ignored_packages` and `in_process_packages` are the two persisted lists
(modelled from the spec as deduplicated sets, as `load_list_setting` /
`save_list_setting` present them), the six backup maps and the two default
maps mirror the class attributes, `restore_id` is the restore token,
`prefs` is the global preferences settings object, `views` the open views,
and `events` the event log collaborator's record (modelled from the spec:
`events.add(kind, package, version)` appends an entry). -/
structure St where
  ignored_packages : Finset String
  in_process_packages : Finset String
  color_scheme_packages : List (String × Finset String)
  theme_packages : List (String × Finset String)
  default_themes : List (String × String)
  default_color_schemes : List (String × String)
  global_themes : List (String × String)
  global_color_schemes : List (String × String)
  view_color_schemes : List (Nat × List (String × String))
  view_syntaxes : List (Nat × String)
  restore_id : Nat
  prefs : List (String × String)
  views : List View
  events : List (String × String × JValue)

/-- The package named by a resource path `Packages/<pkg>/<rest>`: the text
between the 9-character prefix and the next slash, when such a slash
exists. -/
def pathPackage (path : String) : Option String :=
  match splitOnce (path.toList.drop 9) with
  | (a, some _) => some (String.mk a)
  | (_, none) => none

/-- Fold of the body shared by both resource locators: collect the owning
package of every resource path that has one. -/
def packagesFromResources (paths : List String) : Finset String :=
  paths.foldl
    (fun acc path =>
      match pathPackage path with
      | some p => insert p acc
      | none => acc)
    ∅

/-- Embedding of `find_color_scheme_packages`: the bare scheme name and
the set of packages supplying a file of that name under either the modern
or the legacy extension. -/
def find_color_scheme_packages (env : Env) (color_scheme : String) : String × Finset String :=
  let name := String.mk (basename (splitextRoot color_scheme.toList))
  (name,
    packagesFromResources (env.findResources (name ++ ".sublime-color-scheme")) ∪
      packagesFromResources (env.findResources (name ++ ".tmTheme")))

/-- Embedding of `find_theme_packages`: the bare theme name and the set of
packages supplying a file with the theme's exact file name. -/
def find_theme_packages (env : Env) (theme : String) : String × Finset String :=
  let file_name := String.mk (basename theme.toList)
  let name := String.mk (splitextRoot file_name.toList)
  (name, packagesFromResources (env.findResources file_name))

/-- Embedding of the module-level `resource_exists`. -/
def resource_exists (env : Env) (path : String) : Bool :=
  if path.toList.take 9 = "Packages/".toList then
    match splitOnce (path.toList.drop 9) with
    | (package_name, some relative_path) =>
        env.packageFileExists (String.mk package_name) (String.mk relative_path)
    | (_, none) => false
  else
    false

/-- Embedding of `PackageDisabler.get_version`. The result is the raw
JSON value found under `version` (Python returns it untyped); a missing
file, empty file, unparsable document, or document lacking the field gives
the string `unknown version`; a document that parses to a non-dict raises
`AttributeError`, which the source does not catch. -/
def get_version (env : Env) (package : String) : Except PyErr JValue :=
  match env.readPackageFile package "package-metadata.json" with
  | none => .ok (.str "unknown version")
  | some metadata_json =>
      if metadata_json = "" then .ok (.str "unknown version")
      else
        match env.jsonLoads metadata_json with
        | none => .ok (.str "unknown version")
        | some (.obj members) =>
            .ok ((dictGet members "version").getD (.str "unknown version"))
        | some _ => .error .attributeError

/-- Modelled from the spec: the event log's `add(kind, package, version)`
records a lifecycle event. -/
def events_add (log : List (String × String × JValue)) (kind package : String)
    (version : JValue) : List (String × String × JValue) :=
  log ++ [(kind, package, version)]

/-- Modelled from the spec: the event log's `clear(kind, package)` removes
the recorded events of that kind for that package. -/
def events_clear (log : List (String × String × JValue)) (kind package : String) :
    List (String × String × JValue) :=
  log.filter (fun e => ¬(e.1 = kind ∧ e.2.1 = package))

/-- Modelled from the spec: `clear(kind, package, future=True)` removes
only not-yet-materialized events of that kind; every event this embedding
records is materialized at once, so the call removes nothing. -/
def events_clear_future (log : List (String × String × JValue)) (_kind _package : String) :
    List (String × String × JValue) :=
  log

/-- The `for package in disabled:` loops of `disable_packages`: resolve
each package's version and record one event of the given kind, propagating
an uncaught exception from `get_version`. -/
def add_version_events (env : Env) (kind : String) :
    List String → List (String × String × JValue) →
    Except PyErr (List (String × String × JValue))
  | [], log => .ok log
  | p :: rest, log =>
      match get_version env p with
      | .error e => .error e
      | .ok v => add_version_events env kind rest (events_add log kind p v)

/-- The `install` loop of `reenable_packages`: add the event, then clear
its future-dated placeholder. -/
def add_install_events (env : Env) :
    List String → List (String × String × JValue) →
    Except PyErr (List (String × String × JValue))
  | [], log => .ok log
  | p :: rest, log =>
      match get_version env p with
      | .error e => .error e
      | .ok v =>
          add_install_events env rest
            (events_clear_future (events_add log "install" p v) "install" p)

/-- The `upgrade` loop of `reenable_packages`: add `post_upgrade`, clear
its future placeholder, and clear the pending `pre_upgrade` event. -/
def add_post_upgrade_events (env : Env) :
    List String → List (String × String × JValue) →
    Except PyErr (List (String × String × JValue))
  | [], log => .ok log
  | p :: rest, log =>
      match get_version env p with
      | .error e => .error e
      | .ok v =>
          add_post_upgrade_events env rest
            (events_clear
              (events_clear_future (events_add log "post_upgrade" p v) "post_upgrade" p)
              "pre_upgrade" p)

/-- A deterministic linearization of a package set, standing in for
Python's arbitrary-order set iteration in the event-recording loops. -/
def finsetToList (s : Finset String) : List String :=
  Quot.lift (List.insertionSort (fun a b => a ≤ b))
    (fun l₁ l₂ h =>
      List.eq_of_perm_of_sorted
        ((List.perm_insertionSort _ l₁).trans (h.trans (List.perm_insertionSort _ l₂).symm))
        (List.sorted_insertionSort _ l₁) (List.sorted_insertionSort _ l₂))
    s.val

/-- Embedding of `PackageDisabler.init_default_settings`: populate the two
default maps from the host's built-in preferences once per process, keyed
on the theme defaults being still empty. -/
def init_default_settings (env : Env) (st : St) : St :=
  if st.default_themes ≠ [] then st
  else
    let dcs := ["color_scheme", "dark_color_scheme", "light_color_scheme"].foldl
      (fun m key =>
        match dictGet env.defaultPrefs key with
        | some v => if v ≠ "" then dictSet m key v else m
        | none => m)
      st.default_color_schemes
    let dth := ["theme", "dark_theme", "light_theme"].foldl
      (fun m key =>
        match dictGet env.defaultPrefs key with
        | some v => if v ≠ "" then dictSet m key v else m
        | none => m)
      st.default_themes
    { st with default_color_schemes := dcs, default_themes := dth }

/-- The `if name not in map: map[name] = pkgs else: map[name] |= pkgs`
update applied to the two resource-name-keyed backup maps. -/
def backup_insert (m : List (String × Finset String)) (name : String)
    (pkgs : Finset String) : List (String × Finset String) :=
  match dictGet m name with
  | none => dictSet m name pkgs
  | some old => dictSet m name (old ∪ pkgs)

/-- The global-theme pass of `backup_and_reset_settings`, folding over the
items of `default_themes` and threading (preferences, `theme_packages`,
`global_themes`). -/
def backup_reset_global_themes (env : Env) (packages : Finset String) (backup : Bool) :
    List (String × String) →
    List (String × String) × List (String × Finset String) × List (String × String) →
    List (String × String) × List (String × Finset String) × List (String × String)
  | [], acc => acc
  | (key, default_file) :: rest, (prefs, tp, gt) =>
      let next :=
        match dictGet prefs key with
        | none => (prefs, tp, gt)
        | some theme_file =>
            if theme_file = "" ∨ theme_file = "auto" ∨ theme_file = default_file then
              (prefs, tp, gt)
            else
              let found := find_theme_packages env theme_file
              let tps := found.2 ∩ packages
              if tps = ∅ then (prefs, tp, gt)
              else if backup then
                (dictSet prefs key default_file,
                  backup_insert tp found.1 tps,
                  dictSet gt key theme_file)
              else
                (dictSet prefs key default_file, tp, gt)
      backup_reset_global_themes env packages backup rest next

/-- The global-color-scheme pass of `backup_and_reset_settings`, which
additionally caches the active value of every key (reset or not) for the
per-view pass, threading (preferences, cache, `color_scheme_packages`,
`global_color_schemes`). -/
def backup_reset_global_color_schemes (env : Env) (packages : Finset String) (backup : Bool) :
    List (String × String) →
    List (String × String) × List (String × Option String) ×
      List (String × Finset String) × List (String × String) →
    List (String × String) × List (String × Option String) ×
      List (String × Finset String) × List (String × String)
  | [], acc => acc
  | (key, default_file) :: rest, (prefs, cached, csp, gcs) =>
      let scheme_file := dictGet prefs key
      let cached := dictSet cached key scheme_file
      let next :=
        match scheme_file with
        | none => (prefs, cached, csp, gcs)
        | some f =>
            if f = "" ∨ f = "auto" ∨ f = default_file then (prefs, cached, csp, gcs)
            else
              let found := find_color_scheme_packages env f
              let sp := found.2 ∩ packages
              if sp = ∅ then (prefs, cached, csp, gcs)
              else if backup then
                (dictSet prefs key default_file, cached,
                  backup_insert csp found.1 sp,
                  dictSet gcs key f)
              else
                (dictSet prefs key default_file, cached, csp, gcs)
      backup_reset_global_color_schemes env packages backup rest next

/-- The per-view color-scheme loop of `backup_and_reset_settings`: an
override equal to the cached pre-reset global value is skipped; a
processed override is erased from the view (fall back to the global
value), threading (view settings, `color_scheme_packages`,
`view_color_schemes`). -/
def view_scheme_loop (env : Env) (packages : Finset String) (backup : Bool)
    (cached : List (String × Option String)) (vid : Nat) :
    List (String × String) →
    List (String × String) × List (String × Finset String) ×
      List (Nat × List (String × String)) →
    List (String × String) × List (String × Finset String) ×
      List (Nat × List (String × String))
  | [], acc => acc
  | (key, default_file) :: rest, (vs, csp, vcs) =>
      let next :=
        match dictGet vs key with
        | none => (vs, csp, vcs)
        | some f =>
            if f = "" ∨ f = "auto" ∨ f = default_file ∨ dictGet cached key = some (some f) then
              (vs, csp, vcs)
            else
              let found := find_color_scheme_packages env f
              let sp := found.2 ∩ packages
              if sp = ∅ then (vs, csp, vcs)
              else if backup then
                (dictErase vs key,
                  backup_insert csp found.1 sp,
                  dictSet vcs vid (dictSet ((dictGet vcs vid).getD []) key f))
              else
                (dictErase vs key, csp, vcs)
      view_scheme_loop env packages backup cached vid rest next

/-- The per-view assigned-resource step at the end of the view loop: when
the view's assigned file is supplied by an affected package, back it up
(when enabled) and reset to the built-in plain-text default. -/
def view_syntax_step (packages : Finset String) (backup : Bool) (vid : Nat)
    (vs : List (String × String)) (vsx : List (Nat × String)) :
    List (String × String) × List (Nat × String) :=
  match dictGet vs "syntax" with
  | none => (vs, vsx)
  | some syn =>
      if syn ≠ "" ∧ ∃ p ∈ packages, ("Packages/" ++ p ++ "/").isPrefixOf syn then
        (dictSet vs "syntax" "Packages/Text/Plain text.tmLanguage",
          if backup then dictSet vsx vid syn else vsx)
      else (vs, vsx)

/-- Processing of a single open view inside `backup_and_reset_settings`. -/
def process_view (env : Env) (packages : Finset String) (backup : Bool)
    (defaults : List (String × String)) (cached : List (String × Option String))
    (view : View)
    (acc : List (String × Finset String) × List (Nat × List (String × String)) ×
      List (Nat × String)) :
    View × (List (String × Finset String) × List (Nat × List (String × String)) ×
      List (Nat × String)) :=
  let r := view_scheme_loop env packages backup cached view.id defaults
    (view.settings, acc.1, acc.2.1)
  let s := view_syntax_step packages backup view.id r.1 acc.2.2
  ({ view with settings := s.1 }, (r.2.1, r.2.2, s.2))

/-- The loop over every open view of every window. -/
def process_views (env : Env) (packages : Finset String) (backup : Bool)
    (defaults : List (String × String)) (cached : List (String × Option String)) :
    List View →
    List (String × Finset String) × List (Nat × List (String × String)) ×
      List (Nat × String) →
    List View × (List (String × Finset String) × List (Nat × List (String × String)) ×
      List (Nat × String))
  | [], acc => ([], acc)
  | v :: rest, acc =>
      let r := process_view env packages backup defaults cached v acc
      let rr := process_views env packages backup defaults cached rest r.2
      (r.1 :: rr.1, rr.2)

/-- Embedding of `PackageDisabler.backup_and_reset_settings`. -/
def backup_and_reset_settings (env : Env) (st : St) (packages : Finset String)
    (backup : Bool) : St :=
  let st := init_default_settings env st
  let t := backup_reset_global_themes env packages backup st.default_themes
    (st.prefs, st.theme_packages, st.global_themes)
  let c := backup_reset_global_color_schemes env packages backup st.default_color_schemes
    (t.1, [], st.color_scheme_packages, st.global_color_schemes)
  let v := process_views env packages backup st.default_color_schemes c.2.1 st.views
    (c.2.2.1, st.view_color_schemes, st.view_syntaxes)
  { st with
      prefs := c.1,
      theme_packages := t.2.1,
      global_themes := t.2.2,
      color_scheme_packages := v.2.1,
      global_color_schemes := c.2.2.2,
      view_color_schemes := v.2.2.1,
      view_syntaxes := v.2.2.2,
      views := v.1 }

/-- The tail of `disable_packages` after the event loops: persist the two
lists (or propagate the loop's uncaught exception, in which case nothing
is persisted) and return the disabled set. -/
def disable_finish (disabled : Finset String) (st2 : St)
    (ignored in_process : Finset String)
    (eventsRes : Except PyErr (List (String × String × JValue))) :
    Except PyErr (Finset String × St) :=
  match eventsRes with
  | .error e => .error e
  | .ok log =>
      .ok (disabled,
        { st2 with
            events := log,
            in_process_packages := in_process,
            ignored_packages := ignored })

/-- Embedding of `PackageDisabler.disable_packages`: returns the set of
disabled packages and the state after the call, or the uncaught exception
of a `get_version` call inside the event loops. -/
def disable_packages (env : Env) (st : St) (packages : Finset String)
    (operation : String) : Except PyErr (Finset String × St) :=
  let ignored := st.ignored_packages
  let in_process_at_start := st.in_process_packages
  let disabled := packages \ (ignored \ in_process_at_start)
  let ignored := ignored ∪ disabled
  let in_process :=
    if operation = "disable" then in_process_at_start \ packages
    else in_process_at_start ∪ disabled
  let backup : Bool := decide (operation = "install" ∨ operation = "upgrade")
  let st1 := if backup then { st with restore_id := 0 } else st
  let st2 := backup_and_reset_settings env st1 disabled backup
  let eventsRes :=
    if operation = "upgrade" then
      add_version_events env "pre_upgrade" (finsetToList disabled) st2.events
    else if operation = "remove" then
      add_version_events env operation (finsetToList disabled) st2.events
    else .ok st2.events
  disable_finish disabled st2 ignored in_process eventsRes

/-- The tail of `reenable_packages` after the event loops: persist the
two lists, then bump the token and schedule the deferred restore for
`install` and `upgrade`. -/
def reenable_finish (st : St) (ignored in_process pkgs : Finset String)
    (operation : String)
    (eventsRes : Except PyErr (List (String × String × JValue))) :
    Except PyErr (St × Option Nat) :=
  match eventsRes with
  | .error e => .error e
  | .ok log =>
      let st1 :=
        { st with
            events := log,
            ignored_packages := ignored \ pkgs,
            in_process_packages := in_process \ pkgs }
      if operation = "install" ∨ operation = "upgrade" then
        let rid := st1.restore_id + 1
        .ok ({ st1 with restore_id := rid }, some rid)
      else
        .ok (st1, none)

/-- Embedding of `PackageDisabler.reenable_packages`: returns the state
after the call and, when a deferred restore was scheduled, the token
captured for it. -/
def reenable_packages (env : Env) (st : St) (packages : Finset String)
    (operation : String) : Except PyErr (St × Option Nat) :=
  let ignored := st.ignored_packages
  let in_process := st.in_process_packages
  let pkgs := packages ∩ ignored
  let eventsRes :=
    if operation = "install" then
      add_install_events env (finsetToList pkgs) st.events
    else if operation = "upgrade" then
      add_post_upgrade_events env (finsetToList pkgs) st.events
    else if operation = "remove" then
      .ok ((finsetToList pkgs).foldl (fun log p => events_clear log "remove" p) st.events)
    else .ok st.events
  reenable_finish st ignored in_process pkgs operation eventsRes

/-- The view lookup of the restore pass: `sublime.View(view_id)` followed
by `is_valid()`, modelled as finding a still-open view with that identity. -/
def findView (views : List View) (vid : Nat) : Option View :=
  views.find? (fun v => v.id = vid)

/-- Write one key of one view's settings during restore. -/
def updateViewSetting (views : List View) (vid : Nat) (key value : String) : List View :=
  views.map (fun v => if v.id = vid then { v with settings := dictSet v.settings key value } else v)

/-- The global-theme restore loop: for each backed-up key either restore
the file and mark the settings dirty (when every recorded owner is still
present) or accumulate the missing owners; indexing `theme_packages` with
an absent name raises `KeyError`. Threads (preferences, dirty flag,
missing-package accumulator). -/
def restore_global_themes (env : Env) (tp : List (String × Finset String)) :
    List (String × String) →
    List (String × String) × Bool × Finset String →
    (List (String × String) × Bool × Finset String) × Option PyErr
  | [], acc => (acc, none)
  | (key, theme_file) :: rest, (prefs, save, allMissing) =>
      let found := find_theme_packages env theme_file
      match dictGet tp found.1 with
      | none => ((prefs, save, allMissing), some .keyError)
      | some recorded =>
          let missing := recorded \ found.2
          if missing = ∅ then
            restore_global_themes env tp rest (dictSet prefs key theme_file, true, allMissing)
          else
            restore_global_themes env tp rest (prefs, save, allMissing ∪ missing)

/-- The global-color-scheme restore loop, same shape as the theme loop
over `color_scheme_packages` and `global_color_schemes`. -/
def restore_global_color_schemes (env : Env) (csp : List (String × Finset String)) :
    List (String × String) →
    List (String × String) × Bool × Finset String →
    (List (String × String) × Bool × Finset String) × Option PyErr
  | [], acc => (acc, none)
  | (key, scheme_file) :: rest, (prefs, save, allMissing) =>
      let found := find_color_scheme_packages env scheme_file
      match dictGet csp found.1 with
      | none => ((prefs, save, allMissing), some .keyError)
      | some recorded =>
          let missing := recorded \ found.2
          if missing = ∅ then
            restore_global_color_schemes env csp rest
              (dictSet prefs key scheme_file, true, allMissing)
          else
            restore_global_color_schemes env csp rest (prefs, save, allMissing ∪ missing)

/-- The inner loop restoring one view's backed-up color-scheme keys: a
file already failed this pass is skipped, a file with missing owners is
logged and marked failed, otherwise the view setting is written back. -/
def restore_view_scheme_keys (env : Env) (csp : List (String × Finset String)) (vid : Nat) :
    List (String × String) →
    List View × Finset String →
    (List View × Finset String) × Option PyErr
  | [], acc => (acc, none)
  | (key, scheme_file) :: rest, (views, errs) =>
      if scheme_file ∈ errs then
        restore_view_scheme_keys env csp vid rest (views, errs)
      else
        let found := find_color_scheme_packages env scheme_file
        match dictGet csp found.1 with
        | none => ((views, errs), some .keyError)
        | some recorded =>
            if recorded \ found.2 = ∅ then
              restore_view_scheme_keys env csp vid rest
                (updateViewSetting views vid key scheme_file, errs)
            else
              restore_view_scheme_keys env csp vid rest (views, insert scheme_file errs)

/-- The per-view color-scheme restore loop over `view_color_schemes`;
views that no longer exist are skipped silently. -/
def restore_view_schemes (env : Env) (csp : List (String × Finset String)) :
    List (Nat × List (String × String)) →
    List View × Finset String →
    (List View × Finset String) × Option PyErr
  | [], acc => (acc, none)
  | (vid, schemes) :: rest, (views, errs) =>
      match findView views vid with
      | none => restore_view_schemes env csp rest (views, errs)
      | some v =>
          if v.valid then
            match restore_view_scheme_keys env csp vid schemes (views, errs) with
            | (acc2, none) => restore_view_schemes env csp rest acc2
            | (acc2, some e) => (acc2, some e)
          else
            restore_view_schemes env csp rest (views, errs)

/-- The per-view assigned-file restore loop over `view_syntaxes`: skip
closed views and already-failed paths, verify the resource still exists,
then write it back or mark the path failed. -/
def restore_view_syntaxes (env : Env) :
    List (Nat × String) → List View × Finset String → List View × Finset String
  | [], acc => acc
  | (vid, syn) :: rest, (views, errs) =>
      match findView views vid with
      | none => restore_view_syntaxes env rest (views, errs)
      | some v =>
          if ¬v.valid ∨ syn ∈ errs then
            restore_view_syntaxes env rest (views, errs)
          else if resource_exists env syn then
            restore_view_syntaxes env rest (updateViewSetting views vid "syntax" syn, errs)
          else
            restore_view_syntaxes env rest (views, insert syn errs)

/-- The `try` body of `restore_settings`: the four restore passes in
order, stopping at the first uncaught exception while keeping the state
mutations already performed. Returns the mutated state, the dirty flag
for the global settings file, and the escaped exception if any. -/
def restore_body (env : Env) (st : St) : St × Bool × Option PyErr :=
  let t := restore_global_themes env st.theme_packages st.global_themes (st.prefs, false, ∅)
  match t with
  | ((prefs1, save1, _), some e) => ({ st with prefs := prefs1 }, save1, some e)
  | ((prefs1, save1, _), none) =>
      let c := restore_global_color_schemes env st.color_scheme_packages
        st.global_color_schemes (prefs1, save1, ∅)
      match c with
      | ((prefs2, save2, _), some e) => ({ st with prefs := prefs2 }, save2, some e)
      | ((prefs2, save2, _), none) =>
          let vc := restore_view_schemes env st.color_scheme_packages
            st.view_color_schemes (st.views, ∅)
          match vc with
          | ((views1, _), some e) =>
              ({ st with prefs := prefs2, views := views1 }, save2, some e)
          | ((views1, _), none) =>
              let vs := restore_view_syntaxes env st.view_syntaxes (views1, ∅)
              ({ st with prefs := prefs2, views := vs.1 }, save2, none)

/-- Embedding of `PackageDisabler.restore_settings`: a stale token makes
the whole call a no-op; otherwise the body runs and the `finally` block
persists the preferences when dirty (the returned flag records the disk
write) and unconditionally clears the six backup maps and zeroes the
token, whether or not an exception escaped the body. -/
def restore_settings (env : Env) (restoreIdArg : Nat) (st : St) : St × Bool × Option PyErr :=
  if restoreIdArg ≠ st.restore_id then (st, false, none)
  else
    let r := restore_body env st
    ({ r.1 with
        color_scheme_packages := [],
        theme_packages := [],
        global_color_schemes := [],
        global_themes := [],
        view_color_schemes := [],
        view_syntaxes := [],
        restore_id := 0 },
      r.2.1, r.2.2)

/-- A host with no resources, no packages, no metadata and empty built-in
defaults. -/
def env0 : Env where
  findResources := fun _ => []
  defaultPrefs := []
  packageFileExists := fun _ _ => false
  readPackageFile := fun _ _ => none
  jsonLoads := fun _ => none

/-- The pristine process state: nothing ignored, nothing in process, no
backups, no views. -/
def st0 : St where
  ignored_packages := ∅
  in_process_packages := ∅
  color_scheme_packages := []
  theme_packages := []
  default_themes := []
  default_color_schemes := []
  global_themes := []
  global_color_schemes := []
  view_color_schemes := []
  view_syntaxes := []
  restore_id := 0
  prefs := []
  views := []
  events := []

/-- A host on which packages `A` and `B` both supply
`Mariana.sublime-color-scheme`. -/
def envM : Env where
  findResources := fun name =>
    if name = "Mariana.sublime-color-scheme" then
      ["Packages/A/Mariana.sublime-color-scheme",
        "Packages/B/Mariana.sublime-color-scheme"]
    else []
  defaultPrefs := []
  packageFileExists := fun _ _ => false
  readPackageFile := fun _ _ => none
  jsonLoads := fun _ => none

/-- A state whose active global color scheme is Mariana while the default
is Monokai, with the default maps already initialized and a pending
restore token. -/
def stM : St :=
  { st0 with
      default_themes := [("theme", "Default.sublime-theme")]
      default_color_schemes := [("color_scheme", "Monokai.sublime-color-scheme")]
      prefs := [("color_scheme", "Mariana.sublime-color-scheme")]
      restore_id := 1 }

/-- A state carrying a pending color-scheme backup (Mariana, owned by
`A`) and an already-reset global value, with restore token 1
outstanding. -/
def stM2 : St :=
  { stM with
      global_color_schemes := [("color_scheme", "Mariana.sublime-color-scheme")]
      color_scheme_packages := [("Mariana", {"A"})]
      prefs := [("color_scheme", "Monokai.sublime-color-scheme")] }

/-- The Mariana state together with one open view carrying a Mariana
override. -/
def stM6 : St :=
  { stM with
      views := [{ id := 7, valid := true,
                  settings := [("color_scheme", "Mariana.sublime-color-scheme")] }] }

/-- A host on which package `Foo` contains exactly the relative file
`x.tmLanguage`. -/
def env8 : Env :=
  { env0 with packageFileExists := fun p r => p = "Foo" ∧ r = "x.tmLanguage" }

/-- A host whose package metadata files all hold the JSON document `[]`:
valid JSON that is not an object. -/
def env9 : Env :=
  { env0 with
      readPackageFile := fun _ _ => some "[]",
      jsonLoads := fun _ => some (.arr []) }

/-- The outcome of one concrete `disable_packages` call, for use as a
concrete instantiation of theorems about successful calls. -/
def c1Run : Finset String × St :=
  ((disable_packages env0 st0 {"p"} "disable").toOption).getD (∅, st0)

/-- The two successive concrete `disable` calls instantiating the repeated
disable theorem. -/
def c4Run1 : Finset String × St :=
  ((disable_packages env0 st0 {"p"} "disable").toOption).getD (∅, st0)

/-- The second call of the concrete repeated-disable scenario. -/
def c4Run2 : Finset String × St :=
  ((disable_packages env0 c4Run1.2 {"p"} "disable").toOption).getD (∅, st0)

/-- The state for the round-trip counterexample: `p` is already ignored by the
user before the upgrade starts. -/
def stC5 : St := { st0 with ignored_packages := {"p"} }

/-- The concrete upgrade round trip instantiating the round-trip theorem. -/
def c5Run1 : Finset String × St :=
  ((disable_packages env0 st0 {"p"} "upgrade").toOption).getD (∅, st0)

/-- The re-enable half of the concrete round trip. -/
def c5Run2 : St × Option Nat :=
  ((reenable_packages env0 c5Run1.2 {"p"} "upgrade").toOption).getD (st0, none)

/-- The concrete `remove` disable of the token counterexample. -/
def c2cRun : Finset String × St :=
  ((disable_packages envM stM2 {"C"} "remove").toOption).getD (∅, st0)

/-- The concrete re-enable that schedules a deferred restore. -/
def c2Reenable : St × Option Nat :=
  ((reenable_packages env0 st0 {"q"} "upgrade").toOption).getD (st0, none)

/-- The token the concrete re-enable captured for its scheduled restore. -/
def c2Tok : Nat := c2Reenable.2.getD 0

/-- The install disable performed before the scheduled restore fires. -/
def c2Disable : Finset String × St :=
  ((disable_packages env0 c2Reenable.1 {"p"} "install").toOption).getD (∅, st0)

/-- The fixture for the accumulation witness: defaults initialized with a
single color-scheme key, Mariana active, and an existing Mariana backup
record owned by `Z`. -/
def stC6w : St :=
  { stM with
      default_themes := []
      color_scheme_packages := [("Mariana", {"Z"})] }

/-- Whether one backed-up global theme entry `(key, file)` is restorable
during a restore pass: its resource name has a record whose owners are all
still among the packages currently supplying the file. -/
def theme_restorable (env : Env) (tp : List (String × Finset String))
    (kf : String × String) : Bool :=
  match dictGet tp (find_theme_packages env kf.2).1 with
  | some recorded => decide (recorded \ (find_theme_packages env kf.2).2 = ∅)
  | none => false

/-- Whether one backed-up global color-scheme entry `(key, file)` is
restorable during a restore pass. -/
def scheme_restorable (env : Env) (csp : List (String × Finset String))
    (kf : String × String) : Bool :=
  match dictGet csp (find_color_scheme_packages env kf.2).1 with
  | some recorded => decide (recorded \ (find_color_scheme_packages env kf.2).2 = ∅)
  | none => false

theorem dictGet_dictSet {κ α : Type} [DecidableEq κ] (d : List (κ × α)) (k : κ) (v : α) :
    dictGet (dictSet d k v) k = some v := by
  induction d with
  | nil => simp [dictGet, dictSet]
  | cons hd tl ih =>
      by_cases h : hd.1 = k
      · simp [dictSet, h, dictGet]
      · simpa [dictSet, h, dictGet] using ih

theorem dictGet_dictSet_ne {κ α : Type} [DecidableEq κ] (d : List (κ × α)) (k k' : κ) (v : α)
    (h : k ≠ k') : dictGet (dictSet d k v) k' = dictGet d k' := by
  induction d with
  | nil => simp [dictGet, dictSet, h]
  | cons hd tl ih =>
      by_cases hh : hd.1 = k
      · simp [dictSet, hh, dictGet, h]
      · simp [dictSet, hh, dictGet]
        split <;> simp_all [dictGet]

theorem splitOnce_some {cs a b : List Char} (h : splitOnce cs = (a, some b)) :
    cs = a ++ '/' :: b ∧ '/' ∉ a := by
  induction cs generalizing a b with
  | nil => simp [splitOnce] at h
  | cons c rest ih =>
      by_cases hc : c = '/'
      · simp [splitOnce, hc] at h
        simp [hc, h.1, h.2]
      · have h' : c :: (splitOnce rest).1 = a ∧ (splitOnce rest).2 = some b := by
          simpa [splitOnce, hc] using h
        obtain ⟨h1, h2⟩ := h'
        have hr : splitOnce rest = ((splitOnce rest).1, some b) := by
          rw [← h2]
        obtain ⟨heq, hmem⟩ := ih hr
        subst h1
        constructor
        · simp only [List.cons_append]
          exact congrArg (c :: ·) heq
        · intro hmem2
          rcases List.mem_cons.mp hmem2 with hh | hh
          · exact hc hh.symm
          · exact hmem hh

theorem init_default_settings_ignored (env : Env) (st : St) :
    (init_default_settings env st).ignored_packages = st.ignored_packages := by
  unfold init_default_settings
  split <;> rfl

theorem init_default_settings_in_process (env : Env) (st : St) :
    (init_default_settings env st).in_process_packages = st.in_process_packages := by
  unfold init_default_settings
  split <;> rfl

theorem init_default_settings_restore_id (env : Env) (st : St) :
    (init_default_settings env st).restore_id = st.restore_id := by
  unfold init_default_settings
  split <;> rfl

theorem backup_and_reset_settings_ignored (env : Env) (st : St) (P : Finset String)
    (b : Bool) :
    (backup_and_reset_settings env st P b).ignored_packages = st.ignored_packages := by
  unfold backup_and_reset_settings
  exact init_default_settings_ignored env st

theorem backup_and_reset_settings_in_process (env : Env) (st : St) (P : Finset String)
    (b : Bool) :
    (backup_and_reset_settings env st P b).in_process_packages = st.in_process_packages := by
  unfold backup_and_reset_settings
  exact init_default_settings_in_process env st

theorem backup_and_reset_settings_restore_id (env : Env) (st : St) (P : Finset String)
    (b : Bool) :
    (backup_and_reset_settings env st P b).restore_id = st.restore_id := by
  unfold backup_and_reset_settings
  exact init_default_settings_restore_id env st

theorem disable_finish_ok (disabled : Finset String) (st2 : St)
    (ignored in_process : Finset String)
    (eventsRes : Except PyErr (List (String × String × JValue)))
    (d : Finset String) (st' : St)
    (h : disable_finish disabled st2 ignored in_process eventsRes = .ok (d, st')) :
    d = disabled ∧ st'.ignored_packages = ignored ∧
    st'.in_process_packages = in_process ∧ st'.restore_id = st2.restore_id := by
  cases eventsRes with
  | error e => exact absurd h (by simp [disable_finish])
  | ok log =>
      rw [disable_finish, Except.ok.injEq, Prod.mk.injEq] at h
      obtain ⟨hd, hst⟩ := h
      subst hd
      subst hst
      exact ⟨rfl, rfl, rfl, rfl⟩

/-- What a successful `disable_packages` call did to the two persisted
lists and the restore token, in terms of the entry snapshots. -/
theorem disable_packages_ok (env : Env) (st : St) (packages : Finset String)
    (operation : String) (d : Finset String) (st' : St)
    (h : disable_packages env st packages operation = .ok (d, st')) :
    d = packages \ (st.ignored_packages \ st.in_process_packages) ∧
    st'.ignored_packages = st.ignored_packages ∪ d ∧
    st'.in_process_packages =
      (if operation = "disable" then st.in_process_packages \ packages
       else st.in_process_packages ∪ d) ∧
    st'.restore_id =
      (if operation = "install" ∨ operation = "upgrade" then 0 else st.restore_id) := by
  simp only [disable_packages] at h
  obtain ⟨hd, hig, hip, hrid⟩ := disable_finish_ok _ _ _ _ _ _ _ h
  subst hd
  refine ⟨rfl, hig, hip, ?_⟩
  rw [hrid, backup_and_reset_settings_restore_id]
  by_cases hop : operation = "install" ∨ operation = "upgrade"
  · simp [hop]
  · simp [hop]

theorem reenable_finish_ok (st : St) (ignored in_process pkgs : Finset String)
    (operation : String)
    (eventsRes : Except PyErr (List (String × String × JValue)))
    (st' : St) (tok : Option Nat)
    (h : reenable_finish st ignored in_process pkgs operation eventsRes = .ok (st', tok)) :
    st'.ignored_packages = ignored \ pkgs ∧
    st'.in_process_packages = in_process \ pkgs ∧
    (if operation = "install" ∨ operation = "upgrade" then
      st'.restore_id = st.restore_id + 1 ∧ tok = some (st.restore_id + 1)
     else st'.restore_id = st.restore_id ∧ tok = none) := by
  cases eventsRes with
  | error e => exact absurd h (by simp [reenable_finish])
  | ok log =>
      by_cases hop : operation = "install" ∨ operation = "upgrade"
      · rw [reenable_finish] at h
        simp only [hop, if_true] at h
        rw [Except.ok.injEq, Prod.mk.injEq] at h
        obtain ⟨hst, htok⟩ := h
        subst hst
        simp [hop, ← htok]
      · rw [reenable_finish] at h
        simp only [hop, if_false] at h
        rw [Except.ok.injEq, Prod.mk.injEq] at h
        obtain ⟨hst, htok⟩ := h
        subst hst
        simp [hop, ← htok]

/-- What a successful `reenable_packages` call did to the two persisted
lists and the restore token. -/
theorem reenable_packages_ok (env : Env) (st : St) (packages : Finset String)
    (operation : String) (st' : St) (tok : Option Nat)
    (h : reenable_packages env st packages operation = .ok (st', tok)) :
    st'.ignored_packages = st.ignored_packages \ (packages ∩ st.ignored_packages) ∧
    st'.in_process_packages =
      st.in_process_packages \ (packages ∩ st.ignored_packages) ∧
    (if operation = "install" ∨ operation = "upgrade" then
      st'.restore_id = st.restore_id + 1 ∧ tok = some (st.restore_id + 1)
     else st'.restore_id = st.restore_id ∧ tok = none) := by
  simp only [reenable_packages] at h
  exact reenable_finish_ok _ _ _ _ _ _ _ _ h

/-- C1: for every successful call to `disable_packages(packages, operation)`,
the returned set equals `packages − (ignored − in_process_at_start)` where
`ignored` and `in_process_at_start` are the snapshots read at entry;
consequently it is a subset of the input set and disjoint from packages
already ignored outside an in-process operation. -/
theorem claim_C1_disable_result_set (env : Env) (st : St) (packages : Finset String)
    (operation : String) (d : Finset String) (st' : St)
    (h : disable_packages env st packages operation = .ok (d, st')) :
    d = packages \ (st.ignored_packages \ st.in_process_packages) ∧
    d ⊆ packages ∧
    Disjoint d (st.ignored_packages \ st.in_process_packages) := by
  obtain ⟨hd, -, -, -⟩ := disable_packages_ok env st packages operation d st' h
  subst hd
  exact ⟨rfl, Finset.sdiff_subset, Finset.sdiff_disjoint⟩

theorem claim_C1_witness :
    c1Run.1 = {"p"} \ (st0.ignored_packages \ st0.in_process_packages) ∧
    c1Run.1 ⊆ {"p"} ∧
    Disjoint c1Run.1 (st0.ignored_packages \ st0.in_process_packages) :=
  claim_C1_disable_result_set env0 st0 {"p"} "disable" c1Run.1 c1Run.2 rfl

/-- C4 counterexample: from the pristine state, calling
`disable_packages({"p"}, "upgrade")` twice in a row returns `{"p"}` again from
the second call rather than the empty set, because the package sits in the
in-process list after the first call and is therefore not treated as durably
ignored. -/
theorem claim_C4_counterexample :
    ((disable_packages env0 st0 {"p"} "upgrade").bind
        (fun r => disable_packages env0 r.2 {"p"} "upgrade")).map Prod.fst
      = .ok {"p"} ∧ ({"p"} : Finset String) ≠ ∅ := by
  constructor
  · rfl
  · decide

/-- C4 amended: calling `disable_packages(P, op)` twice in a row with no other
state change in between yields an empty set from the second call when `op` is
`disable`; for every other operation the second call returns exactly the first
call's result again, because the first call put those packages into the
in-process list. -/
theorem claim_C4_repeat_disable (env : Env) (st : St) (P : Finset String)
    (operation : String) (d1 : Finset String) (st1 : St) (d2 : Finset String) (st2 : St)
    (h1 : disable_packages env st P operation = .ok (d1, st1))
    (h2 : disable_packages env st1 P operation = .ok (d2, st2)) :
    (operation = "disable" → d2 = ∅) ∧ (operation ≠ "disable" → d2 = d1) := by
  obtain ⟨hd1, hig1, hip1, -⟩ := disable_packages_ok env st P operation d1 st1 h1
  obtain ⟨hd2, -, -, -⟩ := disable_packages_ok env st1 P operation d2 st2 h2
  constructor
  · intro hop
    rw [hd2, hig1, hip1, if_pos hop, hd1]
    ext x
    simp only [Finset.mem_sdiff, Finset.mem_union, Finset.not_mem_empty, iff_false]
    tauto
  · intro hop
    rw [hd2, hig1, hip1, if_neg hop, hd1]
    ext x
    simp only [Finset.mem_sdiff, Finset.mem_union]
    tauto

theorem claim_C4_witness :
    (("disable" : String) = "disable" → c4Run2.1 = ∅) ∧
    (("disable" : String) ≠ "disable" → c4Run2.1 = c4Run1.1) :=
  claim_C4_repeat_disable env0 st0 {"p"} "disable" c4Run1.1 c4Run1.2 c4Run2.1 c4Run2.2
    rfl rfl

/-- C5 counterexample: when `p` was already ignored by the user before the
operation, `disable({"p"}, "upgrade")` followed by `reenable({"p"}, "upgrade")`
leaves the ignored list empty instead of restoring its pre-disable content
`{"p"}`: re-enabling removes even packages the user had ignored personally. -/
theorem claim_C5_counterexample :
    ((disable_packages env0 stC5 {"p"} "upgrade").bind
        (fun r => reenable_packages env0 r.2 {"p"} "upgrade")).map
        (fun r => r.1.ignored_packages)
      = .ok ∅ ∧ stC5.ignored_packages ≠ ∅ := by
  constructor
  · rfl
  · decide

/-- C5 amended: `disable(P, "upgrade")` followed by `reenable(P, "upgrade")`
restores both `IgnoredPackages` and `InProcessPackages` to their pre-disable
contents provided `P` is disjoint from both lists at entry; for packages
already in either list the round trip removes them (see the counterexample). -/
theorem claim_C5_round_trip (env env2 : Env) (st : St) (P : Finset String)
    (d : Finset String) (st1 st2 : St) (tok : Option Nat)
    (hig : Disjoint P st.ignored_packages)
    (hip : Disjoint P st.in_process_packages)
    (h1 : disable_packages env st P "upgrade" = .ok (d, st1))
    (h2 : reenable_packages env2 st1 P "upgrade" = .ok (st2, tok)) :
    st2.ignored_packages = st.ignored_packages ∧
    st2.in_process_packages = st.in_process_packages := by
  obtain ⟨hd, hig1, hip1, -⟩ := disable_packages_ok env st P "upgrade" d st1 h1
  obtain ⟨hig2, hip2, -⟩ := reenable_packages_ok env2 st1 P "upgrade" st2 tok h2
  have hne : ¬ ("upgrade" : String) = "disable" := by decide
  rw [if_neg hne] at hip1
  have hgm : ∀ x, x ∈ P → x ∉ st.ignored_packages :=
    fun x hx => Finset.disjoint_left.mp hig hx
  have hpm : ∀ x, x ∈ P → x ∉ st.in_process_packages :=
    fun x hx => Finset.disjoint_left.mp hip hx
  constructor
  · rw [hig2, hig1, hd]
    ext x
    simp only [Finset.mem_sdiff, Finset.mem_union, Finset.mem_inter]
    specialize hgm x
    specialize hpm x
    tauto
  · rw [hip2, hip1, hig1, hd]
    ext x
    simp only [Finset.mem_sdiff, Finset.mem_union, Finset.mem_inter]
    specialize hgm x
    specialize hpm x
    tauto

theorem claim_C5_witness :
    c5Run2.1.ignored_packages = st0.ignored_packages ∧
    c5Run2.1.in_process_packages = st0.in_process_packages :=
  claim_C5_round_trip env0 env0 st0 {"p"} c5Run1.1 c5Run1.2 c5Run2.1 c5Run2.2
    (by simp [st0]) (by simp [st0]) rfl rfl

/-- C2 counterexample: a `disable_packages` call whose operation is `remove`
(neither install nor upgrade) leaves the outstanding restore token at 1
instead of resetting it, and the restore scheduled with token 1 then fires for
real: it persists the preferences and restores the backed-up color scheme,
rather than being a no-op. -/
theorem claim_C2_counterexample :
    (disable_packages envM stM2 {"C"} "remove").map (fun r => r.2.restore_id)
      = .ok 1 ∧
    (restore_settings envM 1 c2cRun.2).2.1 = true ∧
    dictGet (restore_settings envM 1 c2cRun.2).1.prefs "color_scheme"
      = some "Mariana.sublime-color-scheme" :=
  ⟨rfl, rfl, rfl⟩

/-- C2 amended: it is the disable calls whose operation IS `install` or
`upgrade` that reset the restore token to zero immediately; any other
operation leaves the token unchanged. A stale token makes `restore_settings`
a strict no-op, so a restore scheduled by a re-enable and followed by an
install/upgrade disable before it fires does nothing. -/
theorem claim_C2_token_invalidation :
    (∀ (env : Env) (st : St) (P : Finset String) (operation : String)
        (d : Finset String) (st' : St),
      (operation = "install" ∨ operation = "upgrade") →
      disable_packages env st P operation = .ok (d, st') → st'.restore_id = 0) ∧
    (∀ (env : Env) (st : St) (P : Finset String) (operation : String)
        (d : Finset String) (st' : St),
      ¬(operation = "install" ∨ operation = "upgrade") →
      disable_packages env st P operation = .ok (d, st') →
      st'.restore_id = st.restore_id) ∧
    (∀ (env : Env) (rid : Nat) (st : St), rid ≠ st.restore_id →
      restore_settings env rid st = (st, false, none)) ∧
    (∀ (env env2 env3 : Env) (st : St) (P : Finset String) (operation : String)
        (st1 : St) (tok : Nat) (P2 : Finset String) (operation2 : String)
        (d : Finset String) (st2 : St),
      reenable_packages env st P operation = .ok (st1, some tok) →
      (operation2 = "install" ∨ operation2 = "upgrade") →
      disable_packages env2 st1 P2 operation2 = .ok (d, st2) →
      restore_settings env3 tok st2 = (st2, false, none)) := by
  have hnoop : ∀ (env : Env) (rid : Nat) (st : St), rid ≠ st.restore_id →
      restore_settings env rid st = (st, false, none) := by
    intro env rid st h
    rw [restore_settings, if_pos h]
  refine ⟨?_, ?_, hnoop, ?_⟩
  · intro env st P operation d st' hop h
    obtain ⟨-, -, -, hrid⟩ := disable_packages_ok env st P operation d st' h
    rw [hrid, if_pos hop]
  · intro env st P operation d st' hop h
    obtain ⟨-, -, -, hrid⟩ := disable_packages_ok env st P operation d st' h
    rw [hrid, if_neg hop]
  · intro env env2 env3 st P operation st1 tok P2 operation2 d st2 hre hop2 hdis
    obtain ⟨-, -, hif⟩ := reenable_packages_ok env st P operation st1 (some tok) hre
    obtain ⟨-, -, -, hrid2⟩ := disable_packages_ok env2 st1 P2 operation2 d st2 hdis
    rw [if_pos hop2] at hrid2
    have htok : tok = st.restore_id + 1 := by
      by_cases hop : operation = "install" ∨ operation = "upgrade"
      · rw [if_pos hop] at hif
        exact Option.some.inj hif.2
      · rw [if_neg hop] at hif
        exact absurd hif.2 (by simp)
    apply hnoop
    rw [htok, hrid2]
    exact Nat.succ_ne_zero _

theorem claim_C2_witness :
    restore_settings env0 c2Tok c2Disable.2 = (c2Disable.2, false, none) :=
  claim_C2_token_invalidation.2.2.2 env0 env0 env0 st0 {"q"} "upgrade"
    c2Reenable.1 c2Tok {"p"} "install" c2Disable.1 c2Disable.2 rfl (Or.inl rfl) rfl

/-- C3 counterexample: with packages `A` and `B` both providing
`Mariana.sublime-color-scheme` and Mariana active, disabling only `A` (via
`backup_and_reset_settings` with affected set `{A}` and backup on) DOES reset
the global color scheme to the Monokai default, although `B` still supplies
it — contradicting the claim that it must not be reset. -/
theorem claim_C3_counterexample :
    dictGet (backup_and_reset_settings envM stM {"A"} true).prefs "color_scheme"
      = some "Monokai.sublime-color-scheme" ∧
    dictGet stM.prefs "color_scheme" = some "Mariana.sublime-color-scheme" :=
  ⟨rfl, rfl⟩

/-- C3 amended: because a merged color scheme breaks when any contributing
package disappears, disabling only `A` already resets the global color scheme
to the default (backing it up with owner set `{A}`); disabling both `A` and
`B` also resets it; and a matching-token restore with both packages still
present restores Mariana and persists the preferences. -/
theorem claim_C3_reset_any_owner :
    dictGet (backup_and_reset_settings envM stM {"A"} true).prefs "color_scheme"
      = some "Monokai.sublime-color-scheme" ∧
    dictGet (backup_and_reset_settings envM stM {"A"} true).color_scheme_packages
      "Mariana" = some ({"A", "B"} ∩ {"A"}) ∧
    dictGet (backup_and_reset_settings envM stM {"A", "B"} true).prefs "color_scheme"
      = some "Monokai.sublime-color-scheme" ∧
    dictGet (restore_settings envM 1
        (backup_and_reset_settings envM stM {"A", "B"} true)).1.prefs "color_scheme"
      = some "Mariana.sublime-color-scheme" ∧
    (restore_settings envM 1
        (backup_and_reset_settings envM stM {"A", "B"} true)).2.1 = true :=
  ⟨rfl, rfl, rfl, rfl, rfl⟩

theorem backup_reset_single_scheme (env : Env) (P : Finset String) (k dflt F N : String)
    (O S₀ : Finset String) (prefs : List (String × String))
    (cached : List (String × Option String))
    (csp : List (String × Finset String)) (gcs : List (String × String))
    (hF : dictGet prefs k = some F) (h1 : F ≠ "") (h2 : F ≠ "auto") (h3 : F ≠ dflt)
    (hfind : find_color_scheme_packages env F = (N, O))
    (hne : O ∩ P ≠ ∅)
    (hS₀ : dictGet csp N = some S₀) :
    dictGet (backup_reset_global_color_schemes env P true [(k, dflt)]
      (prefs, cached, csp, gcs)).2.2.1 N = some (S₀ ∪ O ∩ P) := by
  rw [backup_reset_global_color_schemes, hF]
  simp only [h1, h2, h3, or_self, if_false, hfind, hne, if_true, backup_insert, hS₀]
  exact dictGet_dictSet csp N (S₀ ∪ O ∩ P)

/-- C6: once a resource name is present in the color-scheme backup map, a
subsequent disable with backup enabled that affects the same name unions the
newly affected supplying packages into the existing record instead of
overwriting it (stated for a state with a single global color-scheme key,
initialized defaults and no open views), and concretely: two sequential
install disables affecting the Mariana scheme, with no restore in between,
leave a record equal to the union of both disables' affected owner sets. -/
theorem claim_C6_backup_accumulation :
    (∀ (env : Env) (st : St) (P : Finset String) (k dflt F N : String)
        (O S₀ : Finset String),
      env.defaultPrefs = [] →
      st.default_themes = [] →
      st.default_color_schemes = [(k, dflt)] →
      st.views = [] →
      dictGet st.prefs k = some F → F ≠ "" → F ≠ "auto" → F ≠ dflt →
      find_color_scheme_packages env F = (N, O) →
      O ∩ P ≠ ∅ →
      dictGet st.color_scheme_packages N = some S₀ →
      dictGet (backup_and_reset_settings env st P true).color_scheme_packages N
        = some (S₀ ∪ O ∩ P)) ∧
    ((disable_packages envM stM6 {"A"} "install").bind
        (fun r => disable_packages envM r.2 {"B"} "install")).map
        (fun r => dictGet r.2.color_scheme_packages "Mariana")
      = .ok (some (({"A", "B"} ∩ {"A"}) ∪ ({"A", "B"} ∩ {"B"}))) := by
  constructor
  · intro env st P k dflt F N O S₀ hdp hdt hdcs hviews hF h1 h2 h3 hfind hne hS₀
    have hinit : init_default_settings env st = st := by
      rw [init_default_settings, if_neg (by simp [hdt]), hdp]
      rfl
    rw [backup_and_reset_settings, hinit, hdt, hdcs, hviews]
    exact backup_reset_single_scheme env P k dflt F N O S₀ st.prefs []
      st.color_scheme_packages st.global_color_schemes hF h1 h2 h3 hfind hne hS₀
  · rfl

theorem claim_C6_witness :
    dictGet (backup_and_reset_settings envM stC6w {"A"} true).color_scheme_packages
      "Mariana" = some ({"Z"} ∪ {"A", "B"} ∩ {"A"}) :=
  claim_C6_backup_accumulation.1 envM stC6w {"A"} "color_scheme"
    "Monokai.sublime-color-scheme" "Mariana.sublime-color-scheme" "Mariana"
    {"A", "B"} {"Z"} rfl rfl rfl rfl rfl (by decide) (by decide) (by decide)
    (by decide) (by decide) rfl

theorem restore_global_themes_save_mono (env : Env) (tp : List (String × Finset String)) :
    ∀ (items : List (String × String)) (prefs : List (String × String)) (save : Bool)
      (m : Finset String),
      ((restore_global_themes env tp items (prefs, save, m)).1).2.1 = true →
      save = true ∨ ∃ kf ∈ items, theme_restorable env tp kf = true := by
  intro items
  induction items with
  | nil => exact fun prefs save m h => Or.inl h
  | cons hd tl ih =>
      intro prefs save m h
      obtain ⟨key, theme_file⟩ := hd
      cases hv : dictGet tp (find_theme_packages env theme_file).1 with
      | none =>
          simp only [restore_global_themes, hv] at h
          exact Or.inl h
      | some recorded =>
          by_cases hm : recorded \ (find_theme_packages env theme_file).2 = ∅
          · refine Or.inr ⟨(key, theme_file), List.mem_cons_self _ _, ?_⟩
            simp [theme_restorable, hv, hm]
          · simp only [restore_global_themes, hv, hm, if_false, if_neg] at h
            rcases ih _ _ _ h with h1 | ⟨kf, hkf, hres⟩
            · exact Or.inl h1
            · exact Or.inr ⟨kf, List.mem_cons_of_mem _ hkf, hres⟩

theorem restore_global_color_schemes_save_mono (env : Env)
    (csp : List (String × Finset String)) :
    ∀ (items : List (String × String)) (prefs : List (String × String)) (save : Bool)
      (m : Finset String),
      ((restore_global_color_schemes env csp items (prefs, save, m)).1).2.1 = true →
      save = true ∨ ∃ kf ∈ items, scheme_restorable env csp kf = true := by
  intro items
  induction items with
  | nil => exact fun prefs save m h => Or.inl h
  | cons hd tl ih =>
      intro prefs save m h
      obtain ⟨key, scheme_file⟩ := hd
      cases hv : dictGet csp (find_color_scheme_packages env scheme_file).1 with
      | none =>
          simp only [restore_global_color_schemes, hv] at h
          exact Or.inl h
      | some recorded =>
          by_cases hm : recorded \ (find_color_scheme_packages env scheme_file).2 = ∅
          · refine Or.inr ⟨(key, scheme_file), List.mem_cons_self _ _, ?_⟩
            simp [scheme_restorable, hv, hm]
          · simp only [restore_global_color_schemes, hv, hm, if_false, if_neg] at h
            rcases ih _ _ _ h with h1 | ⟨kf, hkf, hres⟩
            · exact Or.inl h1
            · exact Or.inr ⟨kf, List.mem_cons_of_mem _ hkf, hres⟩

/-- When the restore body's dirty flag is set, some backed-up global theme or
color-scheme entry was actually written back, which requires all its recorded
owners to be present again. -/
theorem restore_body_save (env : Env) (st : St)
    (h : (restore_body env st).2.1 = true) :
    (∃ kf ∈ st.global_themes, theme_restorable env st.theme_packages kf = true) ∨
    (∃ kf ∈ st.global_color_schemes,
      scheme_restorable env st.color_scheme_packages kf = true) := by
  rcases ht : restore_global_themes env st.theme_packages st.global_themes
      (st.prefs, false, ∅) with ⟨⟨prefs1, save1, m1⟩, err1⟩
  have hthemes : save1 = true →
      ∃ kf ∈ st.global_themes, theme_restorable env st.theme_packages kf = true := by
    intro hs
    rcases restore_global_themes_save_mono env st.theme_packages st.global_themes
        st.prefs false ∅ (by rw [ht]; exact hs) with h1 | h2
    · exact absurd h1 (by simp)
    · exact h2
  cases err1 with
  | some e =>
      simp only [restore_body, ht] at h
      exact Or.inl (hthemes h)
  | none =>
      rcases hc : restore_global_color_schemes env st.color_scheme_packages
          st.global_color_schemes (prefs1, save1, ∅) with ⟨⟨prefs2, save2, m2⟩, err2⟩
      have hschemes : save2 = true →
          (∃ kf ∈ st.global_themes, theme_restorable env st.theme_packages kf = true) ∨
          (∃ kf ∈ st.global_color_schemes,
            scheme_restorable env st.color_scheme_packages kf = true) := by
        intro hs
        rcases restore_global_color_schemes_save_mono env st.color_scheme_packages
            st.global_color_schemes prefs1 save1 ∅ (by rw [hc]; exact hs) with h1 | h2
        · exact Or.inl (hthemes h1)
        · exact Or.inr h2
      cases err2 with
      | some e =>
          simp only [restore_body, ht, hc] at h
          exact hschemes h
      | none =>
          rcases hvc : restore_view_schemes env st.color_scheme_packages
              st.view_color_schemes (st.views, ∅) with ⟨⟨views1, errs1⟩, err3⟩
          cases err3 with
          | some e =>
              simp only [restore_body, ht, hc, hvc] at h
              exact hschemes h
          | none =>
              simp only [restore_body, ht, hc, hvc] at h
              exact hschemes h

/-- C7: every `restore_settings` pass whose token matches — whether or not an
exception escapes the body — ends with all six backup maps cleared and the
outstanding token reset to zero, and it persists the global settings file
only if at least one global setting was actually restorable (all its recorded
owners present again). -/
theorem claim_C7_restore_pass_finalizes (env : Env) (rid : Nat) (st : St)
    (h : rid = st.restore_id) :
    (restore_settings env rid st).1.color_scheme_packages = [] ∧
    (restore_settings env rid st).1.theme_packages = [] ∧
    (restore_settings env rid st).1.global_color_schemes = [] ∧
    (restore_settings env rid st).1.global_themes = [] ∧
    (restore_settings env rid st).1.view_color_schemes = [] ∧
    (restore_settings env rid st).1.view_syntaxes = [] ∧
    (restore_settings env rid st).1.restore_id = 0 ∧
    ((restore_settings env rid st).2.1 = true →
      (∃ kf ∈ st.global_themes, theme_restorable env st.theme_packages kf = true) ∨
      (∃ kf ∈ st.global_color_schemes,
        scheme_restorable env st.color_scheme_packages kf = true)) := by
  have hcond : ¬rid ≠ st.restore_id := by simpa using h
  rw [restore_settings, if_neg hcond]
  exact ⟨rfl, rfl, rfl, rfl, rfl, rfl, rfl, fun hs => restore_body_save env st hs⟩

theorem claim_C7_witness :
    (restore_settings envM 1 stM2).1.color_scheme_packages = [] ∧
    (restore_settings envM 1 stM2).1.theme_packages = [] ∧
    (restore_settings envM 1 stM2).1.global_color_schemes = [] ∧
    (restore_settings envM 1 stM2).1.global_themes = [] ∧
    (restore_settings envM 1 stM2).1.view_color_schemes = [] ∧
    (restore_settings envM 1 stM2).1.view_syntaxes = [] ∧
    (restore_settings envM 1 stM2).1.restore_id = 0 ∧
    ((restore_settings envM 1 stM2).2.1 = true →
      (∃ kf ∈ stM2.global_themes,
        theme_restorable envM stM2.theme_packages kf = true) ∨
      (∃ kf ∈ stM2.global_color_schemes,
        scheme_restorable envM stM2.color_scheme_packages kf = true)) :=
  claim_C7_restore_pass_finalizes envM 1 stM2 rfl

/-- C8: `resource_exists(path)` returns true only when `path` has the exact
form `Packages/<package>/<relative>` (the package component containing no
further slash) and the named package contains that relative file; on such a
path it consults exactly that package for that file; and malformed paths —
one not prefixed with `Packages/`, or one with no sub-path after the package
name — give false rather than raising an error. -/
theorem claim_C8_resource_exists :
    (∀ (env : Env) (path : String), resource_exists env path = true →
      ∃ pkg rel : String, path = "Packages/" ++ pkg ++ "/" ++ rel ∧
        '/' ∉ pkg.toList ∧ env.packageFileExists pkg rel = true) ∧
    (∀ env : Env, resource_exists env "Packages/Foo/x.tmLanguage"
        = env.packageFileExists "Foo" "x.tmLanguage") ∧
    (∀ env : Env, resource_exists env "NotPackages/x" = false) ∧
    (∀ env : Env, resource_exists env "Packages/Foo" = false) := by
  refine ⟨?_, fun env => rfl, fun env => rfl, fun env => rfl⟩
  intro env path h
  unfold resource_exists at h
  by_cases hp : path.toList.take 9 = "Packages/".toList
  · rw [if_pos hp] at h
    cases hs : splitOnce (path.toList.drop 9) with
    | mk a ob =>
        cases ob with
        | none => rw [hs] at h; simp at h
        | some b =>
            rw [hs] at h
            obtain ⟨heq, hmem⟩ := splitOnce_some hs
            refine ⟨String.mk a, String.mk b, ?_, hmem, h⟩
            have hdata : path.toList = "Packages/".toList ++ (a ++ '/' :: b) := by
              conv_lhs => rw [← List.take_append_drop 9 path.toList]
              rw [hp, heq]
            apply String.ext
            show path.data = _
            have hd2 : path.data = "Packages/".toList ++ (a ++ '/' :: b) := hdata
            rw [hd2]
            show "Packages/".toList ++ (a ++ '/' :: b)
              = (("Packages/".toList ++ a) ++ ['/']) ++ b
            simp [List.append_assoc]
  · rw [if_neg hp] at h
    exact absurd h (by simp)

theorem claim_C8_witness :
    resource_exists env8 "Packages/Foo/x.tmLanguage" = true ∧
    (∃ pkg rel : String,
      ("Packages/Foo/x.tmLanguage" : String) = "Packages/" ++ pkg ++ "/" ++ rel ∧
      '/' ∉ pkg.toList ∧ env8.packageFileExists pkg rel = true) :=
  ⟨by decide, claim_C8_resource_exists.1 env8 "Packages/Foo/x.tmLanguage" (by decide)⟩

/-- C9 counterexample: when the metadata file holds valid JSON that is not an
object (here the document `[]`), `get_version` raises `AttributeError` — the
`.get` call on a non-dict value is outside the caught `ValueError` — so it is
not true that `get_version` never raises for every package. -/
theorem claim_C9_counterexample :
    get_version env9 "p" = .error .attributeError := rfl

/-- C9 amended: `get_version` returns without raising in every case the
claim lists — metadata file missing or empty, contents failing to parse as
JSON, or a parsed JSON object lacking a version field, all yielding the
string `unknown version` — and returns the version value of a JSON-object
document; only metadata parsing to valid non-object JSON makes it raise. -/
theorem claim_C9_get_version_cases (env : Env) (package : String) :
    (env.readPackageFile package "package-metadata.json" = none →
      get_version env package = .ok (.str "unknown version")) ∧
    (env.readPackageFile package "package-metadata.json" = some "" →
      get_version env package = .ok (.str "unknown version")) ∧
    (∀ s, env.readPackageFile package "package-metadata.json" = some s → s ≠ "" →
      env.jsonLoads s = none →
      get_version env package = .ok (.str "unknown version")) ∧
    (∀ s members, env.readPackageFile package "package-metadata.json" = some s →
      s ≠ "" → env.jsonLoads s = some (.obj members) →
      dictGet members "version" = none →
      get_version env package = .ok (.str "unknown version")) ∧
    (∀ s members v, env.readPackageFile package "package-metadata.json" = some s →
      s ≠ "" → env.jsonLoads s = some (.obj members) →
      dictGet members "version" = some v →
      get_version env package = .ok v) := by
  refine ⟨?_, ?_, ?_, ?_, ?_⟩
  · intro hr
    simp only [get_version, hr]
  · intro hr
    simp only [get_version, hr, if_pos]
  · intro s hr hs hj
    simp only [get_version, hr, hs, if_false, hj]
  · intro s members hr hs hj hv
    simp only [get_version, hr, hs, if_false, hj, hv, Option.getD_none]
  · intro s members v hr hs hj hv
    simp only [get_version, hr, hs, if_false, hj, hv, Option.getD_some]

theorem claim_C9_witness :
    get_version env0 "p" = .ok (.str "unknown version") :=
  (claim_C9_get_version_cases env0 "p").1 rfl

theorem init_default_settings_frame (env : Env) (st : St) :
    (init_default_settings env st).theme_packages = st.theme_packages ∧
    (init_default_settings env st).color_scheme_packages = st.color_scheme_packages ∧
    (init_default_settings env st).global_themes = st.global_themes ∧
    (init_default_settings env st).global_color_schemes = st.global_color_schemes ∧
    (init_default_settings env st).view_color_schemes = st.view_color_schemes ∧
    (init_default_settings env st).view_syntaxes = st.view_syntaxes ∧
    (init_default_settings env st).prefs = st.prefs ∧
    (init_default_settings env st).views = st.views := by
  unfold init_default_settings
  split <;> exact ⟨rfl, rfl, rfl, rfl, rfl, rfl, rfl, rfl⟩

theorem backup_reset_global_themes_frame (env : Env) (P : Finset String) :
    ∀ (items : List (String × String))
      (acc : List (String × String) × List (String × Finset String) ×
        List (String × String)),
      (backup_reset_global_themes env P false items acc).2.1 = acc.2.1 ∧
      (backup_reset_global_themes env P false items acc).2.2 = acc.2.2 := by
  intro items
  induction items with
  | nil => exact fun acc => ⟨rfl, rfl⟩
  | cons hd tl ih =>
      intro acc
      obtain ⟨key, default_file⟩ := hd
      obtain ⟨prefs, tp, gt⟩ := acc
      cases hv : dictGet prefs key with
      | none =>
          simp only [backup_reset_global_themes, hv]
          exact ih _
      | some theme_file =>
          simp only [backup_reset_global_themes, hv]
          split_ifs with h1 h2 h3
          · exact ih _
          · exact ih _
          · exact absurd h3 (by simp)
          · exact ih _

theorem backup_reset_global_color_schemes_frame (env : Env) (P : Finset String) :
    ∀ (items : List (String × String))
      (acc : List (String × String) × List (String × Option String) ×
        List (String × Finset String) × List (String × String)),
      (backup_reset_global_color_schemes env P false items acc).2.2.1 = acc.2.2.1 ∧
      (backup_reset_global_color_schemes env P false items acc).2.2.2 = acc.2.2.2 := by
  intro items
  induction items with
  | nil => exact fun acc => ⟨rfl, rfl⟩
  | cons hd tl ih =>
      intro acc
      obtain ⟨key, default_file⟩ := hd
      obtain ⟨prefs, cached, csp, gcs⟩ := acc
      cases hv : dictGet prefs key with
      | none =>
          simp only [backup_reset_global_color_schemes, hv]
          exact ih _
      | some f =>
          simp only [backup_reset_global_color_schemes, hv]
          split_ifs with h1 h2 h3
          · exact ih _
          · exact ih _
          · exact absurd h3 (by simp)
          · exact ih _

theorem view_scheme_loop_frame (env : Env) (P : Finset String)
    (cached : List (String × Option String)) (vid : Nat) :
    ∀ (items : List (String × String))
      (acc : List (String × String) × List (String × Finset String) ×
        List (Nat × List (String × String))),
      (view_scheme_loop env P false cached vid items acc).2.1 = acc.2.1 ∧
      (view_scheme_loop env P false cached vid items acc).2.2 = acc.2.2 := by
  intro items
  induction items with
  | nil => exact fun acc => ⟨rfl, rfl⟩
  | cons hd tl ih =>
      intro acc
      obtain ⟨key, default_file⟩ := hd
      obtain ⟨vs, csp, vcs⟩ := acc
      cases hv : dictGet vs key with
      | none =>
          simp only [view_scheme_loop, hv]
          exact ih _
      | some f =>
          simp only [view_scheme_loop, hv]
          split_ifs with h1 h2 h3
          · exact ih _
          · exact ih _
          · exact absurd h3 (by simp)
          · exact ih _

theorem view_syntax_step_frame (P : Finset String) (vid : Nat)
    (vs : List (String × String)) (vsx : List (Nat × String)) :
    (view_syntax_step P false vid vs vsx).2 = vsx := by
  cases hv : dictGet vs "syntax" with
  | none => simp only [view_syntax_step, hv]
  | some syn =>
      simp only [view_syntax_step, hv]
      split_ifs with h1 h2
      · exact h2.elim
      · rfl
      · rfl

theorem process_view_frame (env : Env) (P : Finset String)
    (defaults : List (String × String)) (cached : List (String × Option String))
    (view : View)
    (acc : List (String × Finset String) × List (Nat × List (String × String)) ×
      List (Nat × String)) :
    (process_view env P false defaults cached view acc).2 = acc := by
  obtain ⟨csp, vcs, vsx⟩ := acc
  have h1 := view_scheme_loop_frame env P cached view.id defaults
    (view.settings, csp, vcs)
  simp only [process_view]
  rw [h1.1, h1.2, view_syntax_step_frame]

theorem process_views_frame (env : Env) (P : Finset String)
    (defaults : List (String × String)) (cached : List (String × Option String)) :
    ∀ (views : List View)
      (acc : List (String × Finset String) × List (Nat × List (String × String)) ×
        List (Nat × String)),
      (process_views env P false defaults cached views acc).2 = acc := by
  intro views
  induction views with
  | nil => exact fun acc => rfl
  | cons v rest ih =>
      intro acc
      simp only [process_views]
      rw [ih _, process_view_frame]

/-- C10: a `backup_and_reset_settings` call with backup disabled leaves all
six backup maps and the restore token unchanged; only the live global and
per-view settings are mutated, so backups accumulated by an earlier
install or upgrade survive an intervening reset-only disable. -/
theorem claim_C10_reset_only_frame (env : Env) (st : St) (P : Finset String) :
    (backup_and_reset_settings env st P false).theme_packages = st.theme_packages ∧
    (backup_and_reset_settings env st P false).color_scheme_packages
      = st.color_scheme_packages ∧
    (backup_and_reset_settings env st P false).global_themes = st.global_themes ∧
    (backup_and_reset_settings env st P false).global_color_schemes
      = st.global_color_schemes ∧
    (backup_and_reset_settings env st P false).view_color_schemes
      = st.view_color_schemes ∧
    (backup_and_reset_settings env st P false).view_syntaxes = st.view_syntaxes ∧
    (backup_and_reset_settings env st P false).restore_id = st.restore_id := by
  obtain ⟨hi1, hi2, hi3, hi4, hi5, hi6, hi7, hi8⟩ := init_default_settings_frame env st
  refine ⟨?_, ?_, ?_, ?_, ?_, ?_, backup_and_reset_settings_restore_id env st P false⟩
  · show (backup_reset_global_themes env P false _ _).2.1 = st.theme_packages
    rw [(backup_reset_global_themes_frame env P _ _).1]
    exact hi1
  · show (process_views env P false _ _ _ _).2.1 = st.color_scheme_packages
    rw [process_views_frame]
    show (backup_reset_global_color_schemes env P false _ _).2.2.1
      = st.color_scheme_packages
    rw [(backup_reset_global_color_schemes_frame env P _ _).1]
    exact hi2
  · show (backup_reset_global_themes env P false _ _).2.2 = st.global_themes
    rw [(backup_reset_global_themes_frame env P _ _).2]
    exact hi3
  · show (backup_reset_global_color_schemes env P false _ _).2.2.2
      = st.global_color_schemes
    rw [(backup_reset_global_color_schemes_frame env P _ _).2]
    exact hi4
  · show (process_views env P false _ _ _ _).2.2.1 = st.view_color_schemes
    rw [process_views_frame]
    exact hi5
  · show (process_views env P false _ _ _ _).2.2.2 = st.view_syntaxes
    rw [process_views_frame]
    exact hi6

end PackageControl
